import Mathlib

/-!
Verification development for a Mainline BitTorrent DHT node (Rust).

The source files embedded here are `src/dht/handler.rs`, `src/dht/mod.rs`,
`src/peer/peer.rs` and `src/transport/mod.rs`.  Supporting modules that the
repository references but whose sources are absent (`proto`, `routing`,
`errors`, the transport submodules) are modelled from the specification
document; each such definition carries a doc comment starting
`Modelled from the spec:`.

Machine integers are modelled as `Nat` (ids are 160-bit, ports 16-bit,
IPv4 addresses 32-bit); `Result<T>` is `Except ErrorKind T`; mutexes are
modelled as always acquirable (lock poisoning is a panic-propagation
concern outside the shallow embedding); the wall clock is threaded as an
explicit `now : Nat` argument.
-/

deriving instance DecidableEq for Except

namespace DhtCrawler

/-- Modelled from the spec: `NodeID` is an opaque 160-bit identifier
(`proto::NodeID` is not under `src/`).  Values are naturals below `2^160`. -/
abbrev NodeID := Nat

/-- Modelled from the spec: an IPv4 socket address (`std::net::SocketAddrV4`):
a 32-bit ip and a 16-bit UDP port. -/
structure SocketAddrV4 where
  ip : Nat
  port : Nat
  deriving DecidableEq, Repr

/-- `SocketAddrV4::set_port`: functional version returning the updated address. -/
def SocketAddrV4.setPort (a : SocketAddrV4) (p : Nat) : SocketAddrV4 :=
  { a with port := p }

/-- Modelled from the spec: node liveness classification
`{good, questionable, bad}` (§3 Node). -/
inductive NodeState
  | good
  | questionable
  | bad
  deriving DecidableEq, Repr

/-- Modelled from the spec: a routing-table entry (§3 Node):
`{id, address, last_successful_request, last_request_received, state}`
(`routing::Node` is not under `src/`). -/
structure Node where
  id : NodeID
  address : SocketAddrV4
  lastSuccessfulRequest : Option Nat
  lastRequestReceived : Option Nat
  state : NodeState
  deriving DecidableEq, Repr

/-- Modelled from the spec: `Node::new` — a node created on first contact,
with no recorded interactions yet, hence `questionable`. -/
def Node.new (id : NodeID) (address : SocketAddrV4) : Node :=
  { id := id, address := address, lastSuccessfulRequest := none,
    lastRequestReceived := none, state := .questionable }

/-- Modelled from the spec: `mark_successful_request()` updates the
outbound-success timestamp and may promote `questionable` to `good`. -/
def Node.markSuccessfulRequest (n : Node) (now : Nat) : Node :=
  { n with lastSuccessfulRequest := some now,
           state := if n.state = .questionable then .good else n.state }

/-- Modelled from the spec: `mark_successful_request_from()` updates the
inbound-request timestamp and may promote `questionable` to `good`. -/
def Node.markSuccessfulRequestFrom (n : Node) (now : Nat) : Node :=
  { n with lastRequestReceived := some now,
           state := if n.state = .questionable then .good else n.state }

/-- Modelled from the spec: bucket capacity K = 8 (§3 Bucket). -/
def K : Nat := 8

/-- Modelled from the spec: XOR distance between two 160-bit identifiers. -/
def distance (a b : NodeID) : Nat := Nat.xor a b

/-- Bit length of a natural number, fueled (structural) so that concrete
instances reduce; fuel 160 covers the whole identifier space. -/
def bitLengthAux : Nat → Nat → Nat
  | 0, _ => 0
  | fuel + 1, n => if n = 0 then 0 else bitLengthAux fuel (n / 2) + 1

/-- Bit length of a 160-bit value. -/
def bitLength (n : Nat) : Nat := bitLengthAux 160 n

/-- Number of leading zero bits of a distance viewed as a 160-bit string:
`160 - bitlength`. -/
def leadingZeroBits160 (d : Nat) : Nat := 160 - bitLength d

/-- Modelled from the spec: `bucket_index(local, other) =
159 - leading_zero_bits(distance(local, other))` (§4.1). -/
def bucketIndex (localId other : NodeID) : Nat :=
  159 - leadingZeroBits160 (distance localId other)

/-- Modelled from the spec: a bucket is an ordered sequence of up to K nodes;
insertion order is preserved for eviction policy (§3 Bucket). -/
abbrev Bucket := List Node

/-- Modelled from the spec: the routing table (§3 RoutingTable):
local id, an ordered sequence of buckets whose ranges cover the id space,
and the current and previous token secrets.  Bucket `i` (for `i` before the
last) holds nodes whose bucket index equals `i`; the last bucket covers all
remaining (closer) indices and is the splittable one. -/
structure RoutingTable where
  localId : NodeID
  buckets : List Bucket
  tokenSecret : List Nat
  tokenSecretPrev : List Nat
  deriving DecidableEq, Repr

/-- Modelled from the spec: `RoutingTable::new` starts with a single
(splittable) bucket covering the whole space. -/
def RoutingTable.new (localId : NodeID) (secret prev : List Nat) : RoutingTable :=
  { localId := localId, buckets := [[]], tokenSecret := secret, tokenSecretPrev := prev }

/-- All nodes of the table, bucket order preserved. -/
def RoutingTable.allNodes (rt : RoutingTable) : List Node :=
  rt.buckets.flatten

/-- Modelled from the spec: `len()` — total node count across buckets. -/
def RoutingTable.len (rt : RoutingTable) : Nat :=
  rt.allNodes.length

/-- Look up a node by id. -/
def RoutingTable.findNodeById (rt : RoutingTable) (id : NodeID) : Option Node :=
  rt.allNodes.find? (fun n => n.id = id)

/-- Apply `f` to the node with identifier `id`, wherever it sits. -/
def RoutingTable.modifyNode (rt : RoutingTable) (id : NodeID) (f : Node → Node) :
    RoutingTable :=
  { rt with buckets :=
      rt.buckets.map (fun b => b.map (fun n => if n.id = id then f n else n)) }

/-- The index of the bucket responsible for `id`: its bucket index, capped at
the last (splittable) bucket. -/
def RoutingTable.targetBucket (rt : RoutingTable) (id : NodeID) : Nat :=
  min (bucketIndex rt.localId id) (rt.buckets.length - 1)

/-- Split the last bucket: nodes whose bucket index equals the old last index
stay in a now-frozen bucket; the rest move to a fresh splittable bucket. -/
def splitLast (localId : NodeID) (buckets : List Bucket) : List Bucket :=
  let lastIdx := buckets.length - 1
  let last := buckets.getLastD []
  let frozen := last.filter (fun n => bucketIndex localId n.id = lastIdx)
  let deeper := last.filter (fun n => bucketIndex localId n.id ≠ lastIdx)
  buckets.dropLast ++ [frozen, deeper]

/-- Modelled from the spec: error kinds surfaced by the core (§7); the
variants the embedded code paths can produce. -/
inductive ErrorKind
  | BucketFull
  | InvalidToken
  | InsufficientAddress
  | UnimplementedRequestType
  | LockPoisoned
  deriving DecidableEq, Repr

/-- Insert a brand-new node, splitting the last bucket as needed (fueled:
each split adds one bucket and at most 160 buckets are meaningful).
Modelled from the spec (§4.3): full splittable buckets are split in place;
full non-splittable buckets may evict a `bad` node, else fail soft. -/
def insertNode (localId : NodeID) (node : Node) :
    Nat → List Bucket → Except ErrorKind (List Bucket)
  | 0, _ => .error .BucketFull
  | fuel + 1, buckets =>
    let lastIdx := buckets.length - 1
    let j := min (bucketIndex localId node.id) lastIdx
    let b := buckets.getD j []
    if b.length < K then
      .ok (buckets.set j (b ++ [node]))
    else if j = lastIdx then
      insertNode localId node fuel (splitLast localId buckets)
    else if b.any (fun n => n.state = .bad) then
      let evicted := (b.filter (fun n => n.state ≠ .bad)).take (K - 1) ++ [node]
      .ok (buckets.set j evicted)
    else
      .error .BucketFull

/-- Modelled from the spec: `get_or_add(id, addr)` (§4.3) — return the
existing node for `id`, or insert a fresh one into the bucket chosen by
`bucket_index`; a full splittable bucket is split first; a full
non-splittable bucket evicts a bad node or rejects with `BucketFull`.
Returns the updated table together with the resulting node. -/
def RoutingTable.getOrAdd (rt : RoutingTable) (id : NodeID) (addr : SocketAddrV4) :
    RoutingTable × Except ErrorKind Node :=
  match rt.findNodeById id with
  | some n => (rt, .ok n)
  | none =>
    let node := Node.new id addr
    match insertNode rt.localId node 161 rt.buckets with
    | .ok buckets => ({ rt with buckets := buckets }, .ok node)
    | .error e => (rt, .error e)

/-- Modelled from the spec: `add_node(node)` — convenience over `get_or_add`;
inserts the already-built node if its id is absent, soft-failing as above. -/
def RoutingTable.addNode (rt : RoutingTable) (node : Node) : RoutingTable :=
  match rt.findNodeById node.id with
  | some _ => rt
  | none =>
    match insertNode rt.localId node 161 rt.buckets with
    | .ok buckets => { rt with buckets := buckets }
    | .error _ => rt

/-- Modelled from the spec: token and hash values are 20-byte strings,
modelled as lists of naturals. -/
abbrev Token := List Nat

/-- Modelled from the spec: `H`, "any fixed 160-bit hash" used only for
self-verified tokens (§4.3 `generate_token`): a fixed injective encoding of
the secret together with the caller's address bytes stands in for it. -/
def tokenHash (secret : List Nat) (addr : SocketAddrV4) : Token :=
  secret ++ [addr.ip, addr.port]

/-- Modelled from the spec: `generate_token(addr) = H(current_secret || addr_bytes)`. -/
def RoutingTable.generateToken (rt : RoutingTable) (addr : SocketAddrV4) : Token :=
  tokenHash rt.tokenSecret addr

/-- Modelled from the spec: `verify_token(token, addr)` — true if the token
matches the hash under either the current or the previous secret. -/
def RoutingTable.verifyToken (rt : RoutingTable) (token : Token) (addr : SocketAddrV4) :
    Bool :=
  token = tokenHash rt.tokenSecret addr ∨ token = tokenHash rt.tokenSecretPrev addr

/-- Modelled from the spec: `FindNodeResult` (§4.3) — either the exact node
or the up-to-K closest nodes. -/
inductive FindNodeResult
  | node (n : Node)
  | nodes (ns : List Node)
  deriving DecidableEq, Repr

/-- Closeness order for candidate selection: ascending XOR distance to the
target, ties broken by id (§4.3 bucket ordering/tie-break). -/
def closerTo (target : NodeID) (a b : Node) : Bool :=
  distance target a.id < distance target b.id ∨
    (distance target a.id = distance target b.id ∧ a.id ≤ b.id)

/-- Insert an element into a list sorted by `le` (stable insertion sort
step). -/
def insertSorted (le : Node → Node → Bool) (x : Node) : List Node → List Node
  | [] => [x]
  | y :: ys => if le x y then x :: y :: ys else y :: insertSorted le x ys

/-- Sort nodes by `le` (insertion sort, structurally recursive). -/
def sortNodes (le : Node → Node → Bool) (l : List Node) : List Node :=
  l.foldr (insertSorted le) []

/-- Modelled from the spec: `find_nodes(target)` — the K closest nodes by
XOR distance to the target. -/
def RoutingTable.findNodes (rt : RoutingTable) (target : NodeID) : List Node :=
  (sortNodes (closerTo target) rt.allNodes).take K

/-- Modelled from the spec: `find_node(target)` — the exact node when the
table holds `target`, else the K closest nodes. -/
def RoutingTable.findNode (rt : RoutingTable) (target : NodeID) : FindNodeResult :=
  match rt.findNodeById target with
  | some n => .node n
  | none => .nodes (rt.findNodes target)

/-- Modelled from the spec: compact peer addresses in responses
(`proto::Addr` wraps a `SocketAddrV4`). -/
abbrev Addr := SocketAddrV4

/-- Modelled from the spec: the query variants (§3 Message).  The source's
`handle_request` has a wildcard arm for query types beyond the four it
implements; `unknown` stands for any such unimplemented variant. -/
inductive Query
  | ping (id : NodeID)
  | findNode (id : NodeID) (target : NodeID)
  | getPeers (id : NodeID) (infoHash : NodeID)
  | announcePeer (id : NodeID) (impliedPort : Bool) (port : Option Nat)
      (infoHash : NodeID) (token : Token)
  | unknown
  deriving DecidableEq, Repr

/-- Modelled from the spec: the response variants (§3 Message):
`OnlyId`, `NextHop`, `GetPeers`. -/
inductive Response
  | onlyId (id : NodeID)
  | nextHop (id : NodeID) (token : Option Token) (nodes : List Node)
  | getPeers (id : NodeID) (token : Option Token) (peers : List Addr)
  deriving DecidableEq, Repr

/-- Modelled from the spec: a DHT protocol error `[code, text]`. -/
structure ProtoError where
  code : Nat
  text : String
  deriving DecidableEq, Repr

/-- Modelled from the spec: `ErrorKind::as_request_error` (`errors` is not
under `src/`): 203 for malformed queries, 204 for unknown query types, 201
for everything else including `InvalidToken` and `InsufficientAddress` (§6). -/
def ErrorKind.asRequestError : ErrorKind → ProtoError
  | .UnimplementedRequestType => { code := 204, text := "Method Unknown" }
  | .InvalidToken => { code := 201, text := "Invalid Token" }
  | .InsufficientAddress => { code := 201, text := "Insufficient Address Information" }
  | .BucketFull => { code := 201, text := "Generic Error" }
  | .LockPoisoned => { code := 201, text := "Generic Error" }

/-- Modelled from the spec: the message type tag (§3 Message). -/
inductive MessageType
  | query (query : Query)
  | response (response : Response)
  | error (error : ProtoError)
  deriving DecidableEq, Repr

/-- Modelled from the spec: a transaction identifier (16-bit, embedded as
the short byte string `t` on the wire). -/
abbrev TransactionId := Nat

/-- Modelled from the spec: a wire message (§3 Message). -/
structure Message where
  ip : Option Addr
  transactionId : TransactionId
  version : Option (List Nat)
  messageType : MessageType
  readOnly : Bool
  deriving DecidableEq, Repr

/-- Modelled from the spec: the inbound request handed to the query handler
by the receive dispatch (§4.5): `Request{transaction_id, query, read_only,
version}` (`transport::messages::Request` is not under `src/`). -/
structure Request where
  transactionId : TransactionId
  version : Option (List Nat)
  query : Query
  readOnly : Bool
  deriving DecidableEq, Repr

/-- The peer store: `torrents: HashMap<NodeID, Vec<SocketAddrV4>>` from
`src/dht/mod.rs`, embedded as an association list. -/
abbrev Torrents := List (NodeID × List SocketAddrV4)

/-- `torrents.get(&info_hash)` on the association list. -/
def Torrents.get : Torrents → NodeID → Option (List SocketAddrV4)
  | [], _ => none
  | e :: t, infoHash => if e.1 = infoHash then some e.2 else Torrents.get t infoHash

/-- `torrents.entry(info_hash).or_insert_with(Vec::new).push(addr)` from
`handle_announce_peer`: append `addr` to the entry, creating it if absent. -/
def Torrents.push : Torrents → NodeID → SocketAddrV4 → Torrents
  | [], infoHash, addr => [(infoHash, [addr])]
  | e :: t, infoHash, addr =>
    if e.1 = infoHash then (e.1, e.2 ++ [addr]) :: t
    else e :: Torrents.push t infoHash addr

/-- The `Dht` struct from `src/dht/mod.rs`: node id, shared peer store and
shared routing table (the send transport is not part of the handler state). -/
structure Dht where
  id : NodeID
  torrents : Torrents
  routingTable : RoutingTable
  deriving DecidableEq, Repr

/-- `record_request` from `src/dht/handler.rs`: unless the caller was
read-only, `get_or_add` the caller and mark a successful inbound request;
any insertion failure is discarded and the function returns `Ok(())`. -/
def recordRequest (rt : RoutingTable) (id : NodeID) (from_ : SocketAddrV4)
    (readOnly : Bool) (now : Nat) : RoutingTable × Except ErrorKind Unit :=
  if readOnly then
    (rt, .ok ())
  else
    let (rt', res) := rt.getOrAdd id from_
    match res with
    | .ok node => (rt'.modifyNode node.id (fun n => n.markSuccessfulRequestFrom now), .ok ())
    | .error _ => (rt', .ok ())

/-- `Dht::handle_ping` from `src/dht/handler.rs`: record the caller, reply
`OnlyId` with the local id. -/
def Dht.handlePing (dht : Dht) (from_ : SocketAddrV4) (id : NodeID)
    (readOnly : Bool) (now : Nat) : Dht × Except ErrorKind Response :=
  let (rt, res) := recordRequest dht.routingTable id from_ readOnly now
  match res with
  | .error e => ({ dht with routingTable := rt }, .error e)
  | .ok _ => ({ dht with routingTable := rt }, .ok (.onlyId dht.id))

/-- `Dht::handle_find_node` from `src/dht/handler.rs`: record the caller,
then reply `NextHop` with the exact node or the closest nodes and no token. -/
def Dht.handleFindNode (dht : Dht) (from_ : SocketAddrV4) (id target : NodeID)
    (readOnly : Bool) (now : Nat) : Dht × Except ErrorKind Response :=
  let (rt, res) := recordRequest dht.routingTable id from_ readOnly now
  match res with
  | .error e => ({ dht with routingTable := rt }, .error e)
  | .ok _ =>
    let nodes := match rt.findNode target with
      | .node node => [node]
      | .nodes nodes => nodes
    ({ dht with routingTable := rt }, .ok (.nextHop dht.id none nodes))

/-- `Dht::handle_get_peers` from `src/dht/handler.rs`: record the caller,
generate a token bound to the caller's address, then reply `GetPeers` with
the stored peers when the torrent is known, else `NextHop` with the closest
nodes. -/
def Dht.handleGetPeers (dht : Dht) (from_ : SocketAddrV4) (id infoHash : NodeID)
    (readOnly : Bool) (now : Nat) : Dht × Except ErrorKind Response :=
  let (rt, res) := recordRequest dht.routingTable id from_ readOnly now
  match res with
  | .error e => ({ dht with routingTable := rt }, .error e)
  | .ok _ =>
    let token := some (rt.generateToken from_)
    match dht.torrents.get infoHash with
    | some peers =>
      ({ dht with routingTable := rt }, .ok (.getPeers dht.id token peers))
    | none =>
      ({ dht with routingTable := rt }, .ok (.nextHop dht.id token (rt.findNodes infoHash)))

/-- `Dht::handle_announce_peer` from `src/dht/handler.rs`: verify the token
against the caller's address (rejecting with `InvalidToken`); compute the
effective address — the caller's own when `implied_port`, else the caller's
ip with the announced port (rejecting with `InsufficientAddress` when no
port was given), overwriting `from`; record the (rewritten) caller; append
the effective address to the peer store; reply `OnlyId`. -/
def Dht.handleAnnouncePeer (dht : Dht) (from_ : SocketAddrV4) (id : NodeID)
    (impliedPort : Bool) (port : Option Nat) (infoHash : NodeID) (token : Token)
    (readOnly : Bool) (now : Nat) : Dht × Except ErrorKind Response :=
  let rt₀ := dht.routingTable
  if ¬ rt₀.verifyToken token from_ then
    (dht, .error .InvalidToken)
  else
    match port, impliedPort with
    | _, true =>
      announceWith dht rt₀ from_ id infoHash from_ readOnly now
    | none, false => (dht, .error .InsufficientAddress)
    | some p, false =>
      let from' := from_.setPort p
      announceWith dht rt₀ from' id infoHash from' readOnly now
where
  /-- The tail of `handle_announce_peer` after the effective address is
  settled: `from` has been overwritten to `addr` already, so the caller is
  recorded at the effective address too. -/
  announceWith (dht : Dht) (rt₀ : RoutingTable) (addr : SocketAddrV4) (id : NodeID)
      (infoHash : NodeID) (from_ : SocketAddrV4) (readOnly : Bool) (now : Nat) :
      Dht × Except ErrorKind Response :=
    let (rt, res) := recordRequest rt₀ id from_ readOnly now
    match res with
    | .error e => ({ dht with routingTable := rt }, .error e)
    | .ok _ =>
      ({ dht with routingTable := rt, torrents := dht.torrents.push infoHash addr },
        .ok (.onlyId dht.id))

/-- The `match request.query` dispatch at the top of `Dht::handle_request`
(`src/dht/handler.rs`): the four implemented queries go to their handlers;
the wildcard arm fails with `UnimplementedRequestType`. -/
def Dht.dispatchQuery (dht : Dht) (request : Request) (from_ : SocketAddrV4)
    (now : Nat) : Dht × Except ErrorKind Response :=
  match request.query with
  | .ping id => dht.handlePing from_ id request.readOnly now
  | .findNode id target => dht.handleFindNode from_ id target request.readOnly now
  | .getPeers id infoHash => dht.handleGetPeers from_ id infoHash request.readOnly now
  | .announcePeer id impliedPort port infoHash token =>
    dht.handleAnnouncePeer from_ id impliedPort port infoHash token request.readOnly now
  | .unknown => (dht, .error .UnimplementedRequestType)

/-- The tail of `Dht::handle_request` from `src/dht/handler.rs`: wrap the
dispatch result — a response on success, `as_request_error` on failure — in
a reply `Message` echoing the request's transaction id, with `ip` and
`version` absent and `read_only` false. -/
def Dht.handleRequest (dht : Dht) (request : Request) (from_ : SocketAddrV4)
    (now : Nat) : Dht × Message :=
  let (dht', result) := dht.dispatchQuery request from_ now
  let messageType := match result with
    | .ok response => MessageType.response response
    | .error err => MessageType.error err.asRequestError
  (dht', { ip := none, transactionId := request.transactionId, version := none,
           messageType := messageType, readOnly := false })

/-! ### Peer request path (`src/peer/peer.rs`) -/

/-- Modelled from the spec: the per-transaction state stored in the
transaction map (§3 TransactionMap): awaiting a response (with an optional
waker/task handle) or holding the delivered envelope. -/
inductive TxState
  | awaitingResponse (task : Option Unit)
  | gotResponse (envelope : Nat)
  deriving DecidableEq, Repr

/-- The transaction map of `Peer`: `HashMap<TransactionId, TxState>`,
embedded as an association list. -/
abbrev TransactionMap := List (TransactionId × TxState)

/-- `HashMap::insert` on the association-list embedding: replace the entry
for `id` or append a fresh one. -/
def TransactionMap.insert : TransactionMap → TransactionId → TxState → TransactionMap
  | [], id, st => [(id, st)]
  | e :: m, id, st =>
    if e.1 = id then (id, st) :: m else e :: TransactionMap.insert m id st

/-- Lookup in the transaction map. -/
def TransactionMap.lookup : TransactionMap → TransactionId → Option TxState
  | [], _ => none
  | e :: m, id => if e.1 = id then some e.2 else TransactionMap.lookup m id

/-- The externally observable steps taken by `Peer::send_request`: handing
the encoded datagram to the socket, and registering the transaction in the
transaction map. -/
inductive PeerAction
  | sendDatagram (transactionId : TransactionId)
  | registerTransaction (transactionId : TransactionId)
  deriving DecidableEq, Repr

/-- The state of the peer visible to these two steps: the datagrams already
handed to the socket (in order) and the transaction map. -/
structure PeerState where
  sentDatagrams : List TransactionId
  transactions : TransactionMap
  deriving DecidableEq, Repr

/-- Effect of one `PeerAction` on the peer state. -/
def PeerAction.apply (s : PeerState) : PeerAction → PeerState
  | .sendDatagram tid => { s with sentDatagrams := s.sentDatagrams ++ [tid] }
  | .registerTransaction tid =>
    { s with transactions :=
        s.transactions.insert tid (.awaitingResponse none) }

/-- The action sequence of `Peer::send_request` (src/peer/peer.rs, lines
72–87), read off the source in program order: `self.send_socket.send_to(..)`
happens first, and only then is the transaction inserted into
`self.transactions` as `AwaitingResponse { task: None }`. -/
def sendRequestActions (tid : TransactionId) : List PeerAction :=
  [.sendDatagram tid, .registerTransaction tid]

/-- Run a list of actions from a state. -/
def runActions (s : PeerState) : List PeerAction → PeerState
  | [] => s
  | a :: rest => runActions (a.apply s) rest

/-- The states reachable while `send_request` executes: one per prefix of
its action sequence (the state before, between the two steps, and after). -/
def sendRequestStates (tid : TransactionId) (s : PeerState) : List PeerState :=
  (List.range ((sendRequestActions tid).length + 1)).map
    (fun k => runActions s ((sendRequestActions tid).take k))

/-- The initial peer state: nothing sent, empty transaction map
(`Peer::new`). -/
def PeerState.initial : PeerState := { sentDatagrams := [], transactions := [] }

/-! ### Bootstrap (`src/dht/mod.rs`) -/

/-- Modelled from the spec: a client-side request failure
(`RequestTimeout`, `SendError`, `InvalidResponse`, …, §7); the bootstrap
only propagates it, so one opaque code suffices. -/
structure DhtError where
  code : Nat
  deriving DecidableEq, Repr

/-- `Dht::bootstrap_routing_table` from `src/dht/mod.rs`: ping every seed;
each success builds a `Node`, marks it successful and adds it to the routing
table; the per-seed futures are combined with `future::join_all`, which — in
the futures crate this source uses — resolves with the first error, at which
point it drops (cancels) the futures that have not completed.  The embedding
fixes the scheduling in which the seeds' futures complete in list order: the
seeds before the first failing one are processed, the failing seed resolves
the whole bootstrap with its error, and the remaining seeds are cancelled. -/
def bootstrapRoutingTable (ping : SocketAddrV4 → Except DhtError NodeID)
    (now : Nat) : List SocketAddrV4 → RoutingTable →
    RoutingTable × Except DhtError Unit
  | [], rt => (rt, .ok ())
  | addr :: rest, rt =>
    match ping addr with
    | .ok id =>
      let node := (Node.new id addr).markSuccessfulRequest now
      bootstrapRoutingTable ping now rest (rt.addNode node)
    | .error e => (rt, .error e)

/-! ### Helper lemmas -/

/-- `isOk` on a success. -/
theorem except_isOk_ok {ε α : Type} (v : α) : (Except.ok v : Except ε α).isOk = true := rfl

/-- `isOk` on a failure. -/
theorem except_isOk_error {ε α : Type} (e : ε) :
    (Except.error e : Except ε α).isOk = false := rfl

/-- `record_request` never surfaces an error: both branches of the match on
the `get_or_add` result end in `Ok(())`. -/
theorem recordRequest_returns_ok (rt : RoutingTable) (id : NodeID)
    (from_ : SocketAddrV4) (ro : Bool) (now : Nat) :
    (recordRequest rt id from_ ro now).2 = .ok () := by
  unfold recordRequest
  cases ro with
  | true => simp
  | false =>
    simp only [Bool.false_eq_true, if_false]
    rcases h : rt.getOrAdd id from_ with ⟨rt', res⟩
    cases res <;> simp

/-- Looking up a transaction id right after inserting it finds the inserted
state. -/
theorem TransactionMap.lookup_insert (m : TransactionMap) (id : TransactionId)
    (st : TxState) : (m.insert id st).lookup id = some st := by
  induction m with
  | nil => simp [TransactionMap.insert, TransactionMap.lookup]
  | cons e m ih =>
    by_cases h : e.1 = id <;>
      simp [TransactionMap.insert, TransactionMap.lookup, h, ih]

/-- Pushing onto the peer store appends the address to the entry for the
info-hash, creating the entry when absent. -/
theorem Torrents.get_push (t : Torrents) (infoHash : NodeID) (addr : SocketAddrV4) :
    (t.push infoHash addr).get infoHash = some (((t.get infoHash).getD []) ++ [addr]) := by
  induction t with
  | nil => simp [Torrents.push, Torrents.get]
  | cons e t ih =>
    by_cases h : e.1 = infoHash <;>
      simp [Torrents.push, Torrents.get, h, ih]

/-! ### Claim C1 -/

/-- C1, counterexample.  The claim states that for every outbound request
the transaction id is registered in the transaction map before the socket
send returns, and that in no reachable interleaving the datagram has been
handed to the socket while the transaction is unregistered.  In
`Peer::send_request` the `send_to` call precedes the `transactions.insert`:
the state reached right after the first step of `send_request` (transaction
id 0, starting from a fresh peer) has the datagram already handed to the
socket while the transaction map still has no entry for id 0. -/
theorem C1_register_after_send_counterexample :
    (runActions PeerState.initial ((sendRequestActions 0).take 1))
      ∈ sendRequestStates 0 PeerState.initial
    ∧ (runActions PeerState.initial ((sendRequestActions 0).take 1)).sentDatagrams = [0]
    ∧ (runActions PeerState.initial
        ((sendRequestActions 0).take 1)).transactions.lookup 0 = none := by
  decide

/-- C1, amended.  `Peer::send_request` first hands the datagram to the
socket and only afterwards registers the transaction id as
`AwaitingResponse`; once `send_request` completes, the datagram has been
sent and the transaction is registered.  A response arriving between those
two steps finds the transaction unregistered (the known race the source
accepts). -/
theorem C1_send_then_register (tid : TransactionId) (s : PeerState) :
    sendRequestActions tid = [.sendDatagram tid, .registerTransaction tid]
    ∧ (runActions s (sendRequestActions tid)).sentDatagrams = s.sentDatagrams ++ [tid]
    ∧ (runActions s (sendRequestActions tid)).transactions.lookup tid
        = some (.awaitingResponse none) := by
  refine ⟨rfl, rfl, ?_⟩
  simp [runActions, sendRequestActions, PeerAction.apply, TransactionMap.lookup_insert]

/-! ### Claim C2 -/

/-- C2, counterexample.  The claim states that the bootstrap future
resolves only after every per-seed ping has terminated and that no single
ping failure aborts the bootstrap.  With two seeds where the first ping
fails and the second would succeed, `join_all` resolves the bootstrap with
the first error: the returned routing table is still empty — the second
seed was never processed — although bootstrapping the second seed alone
adds its node. -/
theorem C2_bootstrap_abort_counterexample :
    (bootstrapRoutingTable
        (fun a => if a = ⟨1, 1⟩ then .error ⟨0⟩ else .ok 5) 0
        [⟨1, 1⟩, ⟨2, 2⟩] (RoutingTable.new 0 [1] [2])).2 = .error ⟨0⟩
    ∧ (bootstrapRoutingTable
        (fun a => if a = ⟨1, 1⟩ then .error ⟨0⟩ else .ok 5) 0
        [⟨1, 1⟩, ⟨2, 2⟩] (RoutingTable.new 0 [1] [2])).1.len = 0
    ∧ (bootstrapRoutingTable
        (fun a => if a = ⟨1, 1⟩ then .error ⟨0⟩ else .ok 5) 0
        [⟨2, 2⟩] (RoutingTable.new 0 [1] [2])).1.len = 1 := by
  decide

/-- C2, amended.  The bootstrap fails fast: it resolves successfully iff
every seed's ping succeeded; the routing table receives nodes exactly for
the seeds up to (excluding) the first failed ping; and the overall outcome
is the outcome of the first non-successful ping when one exists. -/
theorem C2_bootstrap_fail_fast (ping : SocketAddrV4 → Except DhtError NodeID)
    (now : Nat) (seeds : List SocketAddrV4) (rt : RoutingTable) :
    ((bootstrapRoutingTable ping now seeds rt).2 = .ok ()
        ↔ ∀ a ∈ seeds, (ping a).isOk = true)
    ∧ (bootstrapRoutingTable ping now seeds rt).1
        = (seeds.takeWhile (fun a => (ping a).isOk)).foldl
            (fun t a =>
              match ping a with
              | .ok id => t.addNode ((Node.new id a).markSuccessfulRequest now)
              | .error _ => t) rt
    ∧ (bootstrapRoutingTable ping now seeds rt).2
        = ((seeds.dropWhile (fun a => (ping a).isOk)).head?.elim (.ok ())
            (fun a => (ping a).map (fun _ => ()))) := by
  induction seeds generalizing rt with
  | nil => simp [bootstrapRoutingTable]
  | cons a rest ih =>
    cases h : ping a with
    | ok id =>
      have hisok : (ping a).isOk = true := by rw [h]; rfl
      rcases ih (rt.addNode ((Node.new id a).markSuccessfulRequest now)) with ⟨ih1, ih2, ih3⟩
      have hstep : bootstrapRoutingTable ping now (a :: rest) rt
          = bootstrapRoutingTable ping now rest
              (rt.addNode ((Node.new id a).markSuccessfulRequest now)) := by
        simp [bootstrapRoutingTable, h]
      refine ⟨?_, ?_, ?_⟩
      · rw [hstep, ih1]
        simp [List.forall_mem_cons, hisok]
      · rw [hstep, ih2]
        simp [List.takeWhile_cons, except_isOk_ok, h]
      · rw [hstep, ih3]
        simp [List.dropWhile_cons, hisok]
    | error e =>
      have hisok : (ping a).isOk = false := by rw [h]; rfl
      refine ⟨?_, ?_, ?_⟩
      · simp [bootstrapRoutingTable, h, List.forall_mem_cons, hisok, except_isOk_error]
      · simp [bootstrapRoutingTable, h, List.takeWhile_cons, except_isOk_error]
      · simp [bootstrapRoutingTable, h, List.dropWhile_cons, except_isOk_error, Except.map]

/-- The tail of `handle_announce_peer` in closed form: since
`record_request` always returns `Ok`, it updates the routing table, appends
the effective address to the peer store and replies `OnlyId`. -/
theorem announceWith_eq (dht : Dht) (rt₀ : RoutingTable) (addr : SocketAddrV4)
    (id infoHash : NodeID) (from_ : SocketAddrV4) (ro : Bool) (now : Nat) :
    Dht.handleAnnouncePeer.announceWith dht rt₀ addr id infoHash from_ ro now
      = ({ dht with routingTable := (recordRequest rt₀ id from_ ro now).1,
                    torrents := dht.torrents.push infoHash addr },
          .ok (.onlyId dht.id)) := by
  have hok := recordRequest_returns_ok rt₀ id from_ ro now
  rcases hrr : recordRequest rt₀ id from_ ro now with ⟨rt', res⟩
  rw [hrr] at hok
  simp only at hok
  subst hok
  simp [Dht.handleAnnouncePeer.announceWith, hrr]

/-! ### Claim C3 -/

/-- C3, counterexample.  The claim states that for every inbound query
without `read_only`, the caller is recorded in the routing table before the
query-specific logic runs, unconditionally on that logic's outcome.  For an
`announce_peer` query with an invalid token (and `read_only = false`) the
handler returns `InvalidToken` and the caller (id 42) is never recorded:
the routing table is left without any entry for it. -/
theorem C3_record_before_logic_counterexample :
    (Dht.handleAnnouncePeer
        { id := 3, torrents := [], routingTable := RoutingTable.new 0 [1] [2] }
        ⟨7, 7⟩ 42 true none 99 [0] false 5)
      = ({ id := 3, torrents := [], routingTable := RoutingTable.new 0 [1] [2] },
          .error .InvalidToken)
    ∧ ((Dht.handleAnnouncePeer
        { id := 3, torrents := [], routingTable := RoutingTable.new 0 [1] [2] }
        ⟨7, 7⟩ 42 true none 99 [0] false 5)).1.routingTable.findNodeById 42 = none := by
  decide

/-- C3, amended.  `ping`, `find_node` and `get_peers` record the caller (at
its source address) before their query-specific logic.  `announce_peer`
records the caller only after token verification and effective-address
computation succeed — with the effective address substituted for the source
address — and does not record it when it fails with `InvalidToken` or
`InsufficientAddress`. -/
theorem C3_record_request_placement (dht : Dht) (from_ : SocketAddrV4)
    (id target infoHash : NodeID) (token : Token) (impliedPort : Bool)
    (port : Option Nat) (ro : Bool) (now : Nat) :
    (dht.handlePing from_ id ro now).1.routingTable
        = (recordRequest dht.routingTable id from_ ro now).1
    ∧ (dht.handleFindNode from_ id target ro now).1.routingTable
        = (recordRequest dht.routingTable id from_ ro now).1
    ∧ (dht.handleGetPeers from_ id infoHash ro now).1.routingTable
        = (recordRequest dht.routingTable id from_ ro now).1
    ∧ (dht.handleAnnouncePeer from_ id impliedPort port infoHash token ro now).1.routingTable
        = (if dht.routingTable.verifyToken token from_ then
             match impliedPort, port with
             | true, _ => (recordRequest dht.routingTable id from_ ro now).1
             | false, some p => (recordRequest dht.routingTable id (from_.setPort p) ro now).1
             | false, none => dht.routingTable
           else dht.routingTable) := by
  have hok := recordRequest_returns_ok dht.routingTable id from_ ro now
  rcases hrr : recordRequest dht.routingTable id from_ ro now with ⟨rt', res⟩
  rw [hrr] at hok
  simp only at hok
  subst hok
  refine ⟨?_, ?_, ?_, ?_⟩
  · simp [Dht.handlePing, hrr]
  · simp [Dht.handleFindNode, hrr]
  · rcases htor : dht.torrents.get infoHash with _ | peers <;>
      simp [Dht.handleGetPeers, hrr, htor]
  · by_cases hv : dht.routingTable.verifyToken token from_ = true
    · cases impliedPort <;> rcases port with _ | p <;>
        simp [Dht.handleAnnouncePeer, hv, announceWith_eq, hrr]
    · simp at hv
      cases impliedPort <;> rcases port with _ | p <;>
        simp [Dht.handleAnnouncePeer, hv]

/-! ### Claim C7 -/

/-- C7.  A `ping` query carrying `read_only = true` is answered with the
normal `OnlyId` reply (wrapped in the standard response message), and the
node state — in particular the routing table — is completely unchanged:
the sender is not inserted and no entry is modified. -/
theorem C7_read_only_ping_no_pollution (dht : Dht) (from_ : SocketAddrV4)
    (id : NodeID) (tid : TransactionId) (v : Option (List Nat)) (now : Nat) :
    dht.handleRequest { transactionId := tid, version := v, query := .ping id,
                        readOnly := true } from_ now
      = (dht, { ip := none, transactionId := tid, version := none,
                messageType := .response (.onlyId dht.id), readOnly := false }) := by
  simp [Dht.handleRequest, Dht.dispatchQuery, Dht.handlePing, recordRequest]

/-! ### Claim C8 -/

/-- C8.  `record_request` returns `Ok(())` for every input; in particular,
when the underlying `get_or_add` insertion fails with `BucketFull`, the
failure is swallowed and never surfaces to the query handler. -/
theorem C8_record_request_soft_fail (rt : RoutingTable) (id : NodeID)
    (from_ : SocketAddrV4) (ro : Bool) (now : Nat) :
    (recordRequest rt id from_ ro now).2 = .ok ()
    ∧ ((rt.getOrAdd id from_).2 = .error .BucketFull →
        (recordRequest rt id from_ ro now).2 = .ok ()) :=
  ⟨recordRequest_returns_ok rt id from_ ro now,
   fun _ => recordRequest_returns_ok rt id from_ ro now⟩

/-- C8, witness: a concrete routing table whose bucket 4 is full of eight
good nodes (ids 16–23, none bad, and bucket 4 is not the final splittable
bucket) makes `get_or_add` of the fresh id 24 fail with `BucketFull`, yet
`record_request` still returns `Ok(())`. -/
theorem C8_record_request_soft_fail_witness :
    ((RoutingTable.mk 0
        [[], [], [], [], (List.range 8).map (fun k => Node.new (16 + k) ⟨1, 1⟩), []]
        [1] [2]).getOrAdd 24 ⟨9, 9⟩).2 = .error .BucketFull
    ∧ (recordRequest
        (RoutingTable.mk 0
          [[], [], [], [], (List.range 8).map (fun k => Node.new (16 + k) ⟨1, 1⟩), []]
          [1] [2]) 24 ⟨9, 9⟩ false 0).2 = .ok () :=
  ⟨by decide,
   (C8_record_request_soft_fail
      (RoutingTable.mk 0
        [[], [], [], [], (List.range 8).map (fun k => Node.new (16 + k) ⟨1, 1⟩), []]
        [1] [2]) 24 ⟨9, 9⟩ false 0).2 (by decide)⟩

/-! ### Claim C4 -/

/-- C4.  `handle_announce_peer` verifies the token against the caller's
address, failing with `InvalidToken`; with `implied_port` the caller's own
`(ip, src_port)` is appended to the peer store entry for the info-hash, else
with a present port `p` the address `(ip, p)` is appended, else it fails
with `InsufficientAddress`; on success the reply is `OnlyId` with the local
node id. -/
theorem C4_announce_peer_semantics (dht : Dht) (from_ : SocketAddrV4) (id : NodeID)
    (impliedPort : Bool) (port : Option Nat) (infoHash : NodeID) (token : Token)
    (ro : Bool) (now : Nat) :
    if dht.routingTable.verifyToken token from_ = true then
      match impliedPort, port with
      | true, _ =>
          (dht.handleAnnouncePeer from_ id impliedPort port infoHash token ro now).2
              = .ok (.onlyId dht.id)
          ∧ (dht.handleAnnouncePeer from_ id impliedPort port infoHash token ro
                now).1.torrents.get infoHash
              = some (((dht.torrents.get infoHash).getD []) ++ [from_])
      | false, some p =>
          (dht.handleAnnouncePeer from_ id impliedPort port infoHash token ro now).2
              = .ok (.onlyId dht.id)
          ∧ (dht.handleAnnouncePeer from_ id impliedPort port infoHash token ro
                now).1.torrents.get infoHash
              = some (((dht.torrents.get infoHash).getD []) ++ [from_.setPort p])
      | false, none =>
          dht.handleAnnouncePeer from_ id impliedPort port infoHash token ro now
            = (dht, .error .InsufficientAddress)
    else
      dht.handleAnnouncePeer from_ id impliedPort port infoHash token ro now
        = (dht, .error .InvalidToken) := by
  by_cases hv : dht.routingTable.verifyToken token from_ = true
  · rw [if_pos hv]
    cases impliedPort <;> rcases port with _ | p <;>
      simp [Dht.handleAnnouncePeer, hv, announceWith_eq, Torrents.get_push]
  · rw [if_neg hv]
    simp at hv
    simp [Dht.handleAnnouncePeer, hv]

/-! ### Claim C5 -/

/-- C5.  Every successful `handle_announce_peer` with `implied_port = true`
appends the caller's `(src_ip, src_port)` exactly once to the peer store
list for the info-hash: the list afterwards is the old list with exactly one
new copy of the caller's address at the end, so on an initially absent entry
the address appears exactly once. -/
theorem C5_implied_port_appended_once (dht : Dht) (from_ : SocketAddrV4)
    (id : NodeID) (port : Option Nat) (infoHash : NodeID) (token : Token)
    (ro : Bool) (now : Nat)
    (h : (dht.handleAnnouncePeer from_ id true port infoHash token ro now).2.isOk
          = true) :
    ((dht.handleAnnouncePeer from_ id true port infoHash token ro
        now).1.torrents.get infoHash).getD []
      = ((dht.torrents.get infoHash).getD []) ++ [from_]
    ∧ (((dht.handleAnnouncePeer from_ id true port infoHash token ro
          now).1.torrents.get infoHash).getD []).count from_
      = ((dht.torrents.get infoHash).getD []).count from_ + 1 := by
  by_cases hv : dht.routingTable.verifyToken token from_ = true
  · have heq : ((dht.handleAnnouncePeer from_ id true port infoHash token ro
        now).1.torrents.get infoHash)
          = some (((dht.torrents.get infoHash).getD []) ++ [from_]) := by
      simp [Dht.handleAnnouncePeer, hv, announceWith_eq, Torrents.get_push]
    rw [heq]
    simp
  · simp at hv
    rw [show dht.handleAnnouncePeer from_ id true port infoHash token ro now
        = (dht, .error .InvalidToken) by simp [Dht.handleAnnouncePeer, hv]] at h
    simp [except_isOk_error] at h

/-- C5, witness: on an empty node state with a valid token (derived from the
current secret), an implied-port announce from `(7, 7)` makes the peer list
of info-hash 99 exactly `[(7, 7)]`. -/
theorem C5_implied_port_appended_once_witness :
    ((Dht.mk 3 [] (RoutingTable.new 0 [1] [2])).handleAnnouncePeer
        ⟨7, 7⟩ 42 true none 99 [1, 7, 7] false 5).2.isOk = true
    ∧ (((Dht.mk 3 [] (RoutingTable.new 0 [1] [2])).handleAnnouncePeer
          ⟨7, 7⟩ 42 true none 99 [1, 7, 7] false 5).1.torrents.get 99).getD []
        = (((Dht.mk 3 [] (RoutingTable.new 0 [1] [2])).torrents.get 99).getD [])
            ++ [⟨7, 7⟩]
    ∧ ((((Dht.mk 3 [] (RoutingTable.new 0 [1] [2])).handleAnnouncePeer
          ⟨7, 7⟩ 42 true none 99 [1, 7, 7] false 5).1.torrents.get 99).getD
            []).count ⟨7, 7⟩
        = (((Dht.mk 3 [] (RoutingTable.new 0 [1] [2])).torrents.get 99).getD
            []).count ⟨7, 7⟩ + 1 :=
  ⟨by decide,
   C5_implied_port_appended_once (Dht.mk 3 [] (RoutingTable.new 0 [1] [2]))
     ⟨7, 7⟩ 42 none 99 [1, 7, 7] false 5 (by decide)⟩

/-! ### Claim C6 -/

/-- C6.  An `announce_peer` query whose token does not verify against the
caller's address is answered with a DHT error message with code 201 and the
text "Invalid Token", and the peer store is left unchanged. -/
theorem C6_invalid_token_error_201 (dht : Dht) (from_ : SocketAddrV4)
    (tid : TransactionId) (v : Option (List Nat)) (ro : Bool) (id : NodeID)
    (impliedPort : Bool) (port : Option Nat) (infoHash : NodeID) (token : Token)
    (now : Nat)
    (hver : dht.routingTable.verifyToken token from_ = false) :
    (dht.handleRequest
        { transactionId := tid, version := v,
          query := .announcePeer id impliedPort port infoHash token,
          readOnly := ro } from_ now).2.messageType
      = .error { code := 201, text := "Invalid Token" }
    ∧ (dht.handleRequest
        { transactionId := tid, version := v,
          query := .announcePeer id impliedPort port infoHash token,
          readOnly := ro } from_ now).1.torrents = dht.torrents := by
  constructor <;>
    simp [Dht.handleRequest, Dht.dispatchQuery, Dht.handleAnnouncePeer, hver,
      ErrorKind.asRequestError]

/-- C6, witness: a zeroed token against a node whose secrets are `[1]` and
`[2]` fails verification; the reply carries error code 201 / "Invalid
Token" and the (empty) peer store stays as it was. -/
theorem C6_invalid_token_error_201_witness :
    (Dht.mk 3 [] (RoutingTable.new 0 [1] [2])).routingTable.verifyToken
        [0, 0, 0] ⟨7, 7⟩ = false
    ∧ ((Dht.mk 3 [] (RoutingTable.new 0 [1] [2])).handleRequest
        { transactionId := 0, version := none,
          query := .announcePeer 42 true none 99 [0, 0, 0], readOnly := false }
        ⟨7, 7⟩ 5).2.messageType = .error { code := 201, text := "Invalid Token" }
    ∧ ((Dht.mk 3 [] (RoutingTable.new 0 [1] [2])).handleRequest
        { transactionId := 0, version := none,
          query := .announcePeer 42 true none 99 [0, 0, 0], readOnly := false }
        ⟨7, 7⟩ 5).1.torrents = (Dht.mk 3 [] (RoutingTable.new 0 [1] [2])).torrents :=
  ⟨by decide,
   C6_invalid_token_error_201 (Dht.mk 3 [] (RoutingTable.new 0 [1] [2]))
     ⟨7, 7⟩ 0 none false 42 true none 99 [0, 0, 0] 5 (by decide)⟩

/-! ### Claim C10 -/

/-- C10.  `handle_request` is total: every request yields a reply message
that echoes the request's transaction id, has `read_only = false` and no
`ip` or `version`; its payload is the dispatch result — a `Response` for a
successful handler, the `as_request_error` rendering for a handler error —
and every query beyond the four implemented ones yields the
`UnimplementedRequestType` error message. -/
theorem C10_handle_request_total (dht : Dht) (req : Request)
    (from_ : SocketAddrV4) (now : Nat) :
    (dht.handleRequest req from_ now).2.transactionId = req.transactionId
    ∧ (dht.handleRequest req from_ now).2.readOnly = false
    ∧ (dht.handleRequest req from_ now).2.ip = none
    ∧ (dht.handleRequest req from_ now).2.version = none
    ∧ (dht.handleRequest req from_ now).1 = (dht.dispatchQuery req from_ now).1
    ∧ (dht.handleRequest req from_ now).2.messageType
        = (match (dht.dispatchQuery req from_ now).2 with
           | .ok r => .response r
           | .error e => .error e.asRequestError)
    ∧ (req.query = .unknown →
        (dht.handleRequest req from_ now).2.messageType
          = .error (ErrorKind.asRequestError .UnimplementedRequestType)) := by
  rcases hd : dht.dispatchQuery req from_ now with ⟨dht', result⟩
  refine ⟨?_, ?_, ?_, ?_, ?_, ?_, ?_⟩
  · simp [Dht.handleRequest, hd]
  · simp [Dht.handleRequest, hd]
  · simp [Dht.handleRequest, hd]
  · simp [Dht.handleRequest, hd]
  · simp [Dht.handleRequest, hd]
  · simp [Dht.handleRequest, hd]
  · intro hq
    have h2 : dht.dispatchQuery req from_ now
        = (dht, .error .UnimplementedRequestType) := by
      simp [Dht.dispatchQuery, hq]
    rw [hd] at h2
    simp only [Prod.mk.injEq] at h2
    simp [Dht.handleRequest, hd, h2.2]

/-- C10, witness: an unimplemented query type on a concrete node yields the
204 "Method Unknown" error message. -/
theorem C10_handle_request_total_witness :
    (Request.mk 0 none .unknown false).query = .unknown
    ∧ ((Dht.mk 3 [] (RoutingTable.new 0 [1] [2])).handleRequest
        (Request.mk 0 none .unknown false) ⟨7, 7⟩ 0).2.messageType
        = .error (ErrorKind.asRequestError .UnimplementedRequestType) :=
  ⟨rfl,
   (C10_handle_request_total (Dht.mk 3 [] (RoutingTable.new 0 [1] [2]))
      (Request.mk 0 none .unknown false) ⟨7, 7⟩ 0).2.2.2.2.2.2 rfl⟩

/-! ### Claim C9: support lemmas about `insertNode` -/

/-- The element written by `List.set` is a member when the index is in
range. -/
theorem mem_set_self {α : Type} : ∀ (l : List α) (i : Nat) (a : α),
    i < l.length → a ∈ l.set i a
  | [], i, a, h => absurd h (by simp)
  | _ :: _, 0, _, _ => by simp
  | x :: xs, i + 1, a, h => by
    simp only [List.set]
    exact List.mem_cons_of_mem _ (mem_set_self xs i a (by simpa using h))

/-- Members of `List.set l i a` come from `l` or are `a`. -/
theorem mem_of_mem_set {α : Type} : ∀ (l : List α) (i : Nat) (a x : α),
    x ∈ l.set i a → x ∈ l ∨ x = a
  | [], _, _, _, h => by simp at h
  | y :: ys, 0, a, x, h => by
    rcases List.mem_cons.mp h with rfl | h'
    · exact .inr rfl
    · exact .inl (List.mem_cons_of_mem _ h')
  | y :: ys, i + 1, a, x, h => by
    rcases List.mem_cons.mp h with rfl | h'
    · exact .inl (List.mem_cons_self _ _)
    · rcases mem_of_mem_set ys i a x h' with h'' | rfl
      · exact .inl (List.mem_cons_of_mem _ h'')
      · exact .inr rfl

/-- `List.getD` at an in-range index is a member. -/
theorem getD_mem {α : Type} : ∀ (l : List α) (i : Nat) (d : α),
    i < l.length → l.getD i d ∈ l
  | [], _, _, h => absurd h (by simp)
  | x :: xs, 0, d, _ => by simp
  | x :: xs, i + 1, d, h => by
    rw [List.getD_cons_succ]
    exact List.mem_cons_of_mem _ (getD_mem xs i d (by simpa using h))

/-- `List.getLastD` of a non-empty list is a member. -/
theorem getLastD_mem {α : Type} : ∀ (l : List α) (d : α), l ≠ [] → l.getLastD d ∈ l
  | [], _, h => absurd rfl h
  | [x], d, _ => by simp
  | x :: y :: t, d, _ => by
    rw [List.getLastD_cons]
    exact List.mem_cons_of_mem _ (getLastD_mem (y :: t) x (by simp))

/-- Splitting the last bucket neither invents nor drops ids: every node of
the split table was in the original one. -/
theorem flatten_splitLast_subset (localId : NodeID) (buckets : List Bucket)
    (hne : buckets ≠ []) (x : Node) (hx : x ∈ (splitLast localId buckets).flatten) :
    x ∈ buckets.flatten := by
  rcases List.mem_flatten.mp hx with ⟨c, hc, hxc⟩
  have hlast : buckets.getLastD [] ∈ buckets := getLastD_mem buckets [] hne
  simp only [splitLast, List.mem_append, List.mem_cons, List.not_mem_nil, or_false] at hc
  rcases hc with hc | hc | hc
  · exact List.mem_flatten.mpr
      ⟨c, (List.dropLast_sublist buckets).subset hc, hxc⟩
  · subst hc
    exact List.mem_flatten.mpr ⟨_, hlast, List.mem_of_mem_filter hxc⟩
  · subst hc
    exact List.mem_flatten.mpr ⟨_, hlast, List.mem_of_mem_filter hxc⟩

/-- A successful `insertNode` puts the new node in the table, and every
node of the resulting table is either an original node or the new one. -/
theorem insertNode_spec : ∀ (fuel : Nat) (localId : NodeID) (node : Node)
    (buckets buckets' : List Bucket), 0 < buckets.length →
    insertNode localId node fuel buckets = .ok buckets' →
    node ∈ buckets'.flatten
    ∧ ∀ x ∈ buckets'.flatten, x ∈ buckets.flatten ∨ x = node := by
  intro fuel
  induction fuel with
  | zero =>
    intro localId node buckets buckets' _ h
    simp [insertNode] at h
  | succ fuel ih =>
    intro localId node buckets buckets' hlen h
    simp only [insertNode] at h
    have hj : min (bucketIndex localId node.id) (buckets.length - 1) < buckets.length :=
      Nat.lt_of_le_of_lt (Nat.min_le_right _ _) (Nat.sub_lt hlen Nat.one_pos)
    set j := min (bucketIndex localId node.id) (buckets.length - 1) with hjdef
    set b := buckets.getD j [] with hbdef
    by_cases hc1 : b.length < K
    · rw [if_pos hc1] at h
      simp only [Except.ok.injEq] at h
      subst h
      constructor
      · exact List.mem_flatten.mpr
          ⟨b ++ [node], mem_set_self buckets j (b ++ [node]) hj, by simp⟩
      · intro x hx
        rcases List.mem_flatten.mp hx with ⟨c, hc, hxc⟩
        rcases mem_of_mem_set buckets j (b ++ [node]) c hc with hcb | rfl
        · exact .inl (List.mem_flatten.mpr ⟨c, hcb, hxc⟩)
        · rcases List.mem_append.mp hxc with hxb | hxn
          · exact .inl (List.mem_flatten.mpr ⟨b, getD_mem buckets j [] hj, hxb⟩)
          · exact .inr (by simpa using hxn)
    · rw [if_neg hc1] at h
      by_cases hc2 : j = buckets.length - 1
      · rw [if_pos hc2] at h
        have hne : buckets ≠ [] := List.length_pos.mp hlen
        have hlen' : 0 < (splitLast localId buckets).length := by
          simp [splitLast]
        rcases ih localId node (splitLast localId buckets) buckets' hlen' h with
          ⟨hmem, hsub⟩
        refine ⟨hmem, fun x hx => ?_⟩
        rcases hsub x hx with hx' | rfl
        · exact .inl (flatten_splitLast_subset localId buckets hne x hx')
        · exact .inr rfl
      · rw [if_neg hc2] at h
        by_cases hc3 : b.any (fun n => n.state = .bad)
        · rw [if_pos hc3] at h
          simp only [Except.ok.injEq] at h
          subst h
          constructor
          · exact List.mem_flatten.mpr
              ⟨_, mem_set_self buckets j _ hj, by simp⟩
          · intro x hx
            rcases List.mem_flatten.mp hx with ⟨c, hc, hxc⟩
            rcases mem_of_mem_set buckets j _ c hc with hcb | rfl
            · exact .inl (List.mem_flatten.mpr ⟨c, hcb, hxc⟩)
            · rcases List.mem_append.mp hxc with hxb | hxn
              · exact .inl (List.mem_flatten.mpr
                  ⟨b, getD_mem buckets j [] hj,
                   List.mem_of_mem_filter (List.mem_of_mem_take hxb)⟩)
              · exact .inr (by simpa using hxn)
        · rw [if_neg hc3] at h
          simp at h

/-- `find?` for an id over the modified node list: when the list holds
exactly one node with the id and the modification preserves ids, the lookup
returns the modified node. -/
theorem find_map_modify (l : List Node) (id : NodeID) (f : Node → Node)
    (node : Node) (hnode : node ∈ l) (hid : node.id = id)
    (hf : (f node).id = node.id)
    (huniq : ∀ x ∈ l, x.id = id → x = node) :
    (l.map (fun n => if n.id = id then f n else n)).find? (fun n => n.id = id)
      = some (f node) := by
  induction l with
  | nil => simp at hnode
  | cons y ys ih =>
    by_cases hy : y.id = id
    · have hyn : y = node := huniq y (List.mem_cons_self _ _) hy
      subst hyn
      simp [List.find?_cons, hy, hf, hid]
    · have hnode' : node ∈ ys := by
        rcases List.mem_cons.mp hnode with rfl | h'
        · exact absurd hid hy
        · exact h'
      rw [List.map_cons, if_neg hy, List.find?_cons_of_neg _ (by simpa using hy)]
      exact ih hnode' (fun x hx hxid => huniq x (List.mem_cons_of_mem _ hx) hxid)

/-- Flattening a bucket-wise map is mapping the flattening. -/
theorem flatten_map_map {α β : Type} (f : α → β) (l : List (List α)) :
    (l.map (fun s => s.map f)).flatten = l.flatten.map f := by
  induction l with
  | nil => rfl
  | cons s l ih =>
    rw [List.map_cons, List.flatten_cons, List.flatten_cons, List.map_append, ih]

/-! ### Claim C9 -/

/-- C9.  For an `announce_peer` query with `implied_port = false`, a present
port `p` and a valid token, whose caller id is not yet in the routing table
and whose insertion has room, the node recorded in the routing table for the
caller carries the announced address `(caller ip, p)` — not the caller's UDP
source port — because `from` is overwritten with the effective address
before `record_request` runs. -/
theorem C9_announce_records_announced_port (dht : Dht) (from_ : SocketAddrV4)
    (id : NodeID) (p : Nat) (infoHash : NodeID) (token : Token) (now : Nat)
    (hver : dht.routingTable.verifyToken token from_ = true)
    (hfresh : dht.routingTable.findNodeById id = none)
    (hlen : 0 < dht.routingTable.buckets.length)
    (hins : (insertNode dht.routingTable.localId (Node.new id (from_.setPort p))
        161 dht.routingTable.buckets).isOk = true) :
    ((dht.handleAnnouncePeer from_ id false (some p) infoHash token false
        now).1.routingTable.findNodeById id)
      = some { id := id, address := { ip := from_.ip, port := p },
               lastSuccessfulRequest := none, lastRequestReceived := some now,
               state := .good } := by
  obtain ⟨bs, hbs⟩ : ∃ bs, insertNode dht.routingTable.localId
      (Node.new id (from_.setPort p)) 161 dht.routingTable.buckets = .ok bs := by
    rcases h' : insertNode dht.routingTable.localId (Node.new id (from_.setPort p))
        161 dht.routingTable.buckets with e | bs
    · rw [h'] at hins
      simp [except_isOk_error] at hins
    · exact ⟨bs, rfl⟩
  have hgoa : dht.routingTable.getOrAdd id (from_.setPort p)
      = ({ dht.routingTable with buckets := bs }, .ok (Node.new id (from_.setPort p))) := by
    simp [RoutingTable.getOrAdd, hfresh, hbs]
  have hrec : recordRequest dht.routingTable id (from_.setPort p) false now
      = (({ dht.routingTable with buckets := bs }).modifyNode id
          (fun n => n.markSuccessfulRequestFrom now), .ok ()) := by
    simp [recordRequest, hgoa, Node.new]
  have hrtbl : (dht.handleAnnouncePeer from_ id false (some p) infoHash token false
      now).1.routingTable
        = ({ dht.routingTable with buckets := bs }).modifyNode id
            (fun n => n.markSuccessfulRequestFrom now) := by
    simp [Dht.handleAnnouncePeer, hver, announceWith_eq, hrec]
  rw [hrtbl]
  rcases insertNode_spec 161 dht.routingTable.localId (Node.new id (from_.setPort p))
      dht.routingTable.buckets bs hlen hbs with ⟨hmem, hsub⟩
  have hold : ∀ x ∈ dht.routingTable.buckets.flatten, ¬ (x.id = id) := by
    intro x hx
    have := List.find?_eq_none.mp hfresh x hx
    simpa using this
  have huniq : ∀ x ∈ bs.flatten, x.id = id → x = Node.new id (from_.setPort p) := by
    intro x hx hxid
    rcases hsub x hx with hx' | rfl
    · exact absurd hxid (hold x hx')
    · rfl
  have hfind : (bs.flatten.map
      (fun n => if n.id = id then n.markSuccessfulRequestFrom now else n)).find?
        (fun n => n.id = id)
      = some ((Node.new id (from_.setPort p)).markSuccessfulRequestFrom now) :=
    find_map_modify bs.flatten id (fun n => n.markSuccessfulRequestFrom now)
      (Node.new id (from_.setPort p)) hmem rfl rfl huniq
  simp only [RoutingTable.findNodeById, RoutingTable.modifyNode,
    RoutingTable.allNodes, flatten_map_map]
  rw [hfind]
  rfl

/-- C9, witness: on an empty node state, an announce from `(7, 7)` with
port 80 and a valid token records node 42 at address `(7, 80)`. -/
theorem C9_announce_records_announced_port_witness :
    (Dht.mk 3 [] (RoutingTable.new 0 [1] [2])).routingTable.verifyToken
        [1, 7, 7] ⟨7, 7⟩ = true
    ∧ ((Dht.mk 3 [] (RoutingTable.new 0 [1] [2])).handleAnnouncePeer
        ⟨7, 7⟩ 42 false (some 80) 99 [1, 7, 7] false 5).1.routingTable.findNodeById 42
      = some { id := 42, address := { ip := 7, port := 80 },
               lastSuccessfulRequest := none, lastRequestReceived := some 5,
               state := .good } :=
  ⟨by decide,
   C9_announce_records_announced_port (Dht.mk 3 [] (RoutingTable.new 0 [1] [2]))
     ⟨7, 7⟩ 42 80 99 [1, 7, 7] 5 (by decide) (by decide) (by decide) (by decide)⟩

end DhtCrawler

